import Mathlib

/-!
Verification of the AImmo RAG/vectorization backend against its
natural-language specification.

Shallow embedding conventions:
* Python strings are modelled as `List Char` (`Str`), matching Python's
  code-point based indexing and `len`.
* External effects (database rows, the Qdrant client, embedding providers)
  are modelled as explicit state passed through the functions, or as oracle
  parameters describing the outcome of each external call.
* Python exceptions are modelled with `Except` / explicit result fields.
-/

abbrev Str := List Char

/-- Python `needle in haystack` substring test on strings. -/
def hasSubstr (hay needle : Str) : Bool :=
  match hay with
  | [] => needle.isEmpty
  | _ :: t => needle.isPrefixOf hay || hasSubstr t needle

/-- Python `str.lower()` (ASCII case mapping, sufficient for the data used). -/
def strLower (s : Str) : Str := s.map Char.toLower

/-- Python whitespace for `str.strip()` (the ASCII subset). -/
def isPyWs (c : Char) : Bool :=
  c = ' ' || c = '\t' || c = '\n' || c = '\r' || c = '\x0b' || c = '\x0c'

/-- Python `str.strip()`: drop leading and trailing whitespace. -/
def pyStrip (s : Str) : Str :=
  ((s.dropWhile isPyWs).reverse.dropWhile isPyWs).reverse

/-- `re.sub(r'[ \t]+', ' ', s)`: collapse every run of spaces/tabs to a single
space.  The Bool flag records whether we are inside a run already replaced. -/
def collapseSpTab : Bool → Str → Str
  | _, [] => []
  | inRun, c :: cs =>
    if c = ' ' || c = '\t' then
      if inRun then collapseSpTab true cs else ' ' :: collapseSpTab true cs
    else c :: collapseSpTab false cs

/-- Emit a pending run of `n` newlines, capped at two
(`re.sub(r'\n{3,}', '\n\n', s)` keeps runs of 1 or 2 intact). -/
def emitNl (n : Nat) : Str := List.replicate (min n 2) '\n'

/-- `re.sub(r'\n{3,}', '\n\n', s)`: runs of three or more newlines become two. -/
def collapseNlAux : Nat → Str → Str
  | n, [] => emitNl n
  | n, c :: cs =>
    if c = '\n' then collapseNlAux (n + 1) cs
    else emitNl n ++ c :: collapseNlAux 0 cs

def collapseNl (s : Str) : Str := collapseNlAux 0 s

/-- The whitespace normalization applied by `parse_citations_from_content`
after the markers are removed: collapse spaces/tabs, strip, cap newline runs. -/
def normalizeWs (s : Str) : Str := collapseNl (pyStrip (collapseSpTab false s))

/-- The literal head of an inline provenance marker, `"[SOURCE:"`. -/
def markerHead : Str := '[' :: 'S' :: 'O' :: 'U' :: 'R' :: 'C' :: 'E' :: ':' :: []

/-- A full marker `[SOURCE:id]` as written in generated text. -/
def markerOf (id : Str) : Str := markerHead ++ id ++ [']']

/-- Split `t` at the first `]`: returns the (possibly empty) prefix before it
and the suffix after it; `none` when `t` has no `]` at all. -/
def grabBracketed : Str → Option (Str × Str)
  | [] => none
  | c :: cs =>
    if c = ']' then some ([], cs)
    else
      match grabBracketed cs with
      | some (id, rest) => some (c :: id, rest)
      | none => none

theorem grabBracketed_some {t id rest : Str}
    (h : grabBracketed t = some (id, rest)) :
    t = id ++ ']' :: rest ∧ ']' ∉ id := by
  induction t generalizing id with
  | nil => simp [grabBracketed] at h
  | cons c cs ih =>
    by_cases hc : c = ']'
    · subst hc
      simp [grabBracketed] at h
      obtain ⟨h1, h2⟩ := h
      subst h1; subst h2
      simp
    · simp only [grabBracketed, if_neg hc] at h
      rcases hg : grabBracketed cs with _ | ⟨id0, rest0⟩ <;> rw [hg] at h
      · simp at h
      · simp only [Option.some.injEq, Prod.mk.injEq] at h
        obtain ⟨h1, h2⟩ := h
        subst h2
        obtain ⟨he, hni⟩ := ih hg
        subst he
        constructor
        · rw [← h1]; simp
        · rw [← h1]
          simp [hni]
          exact fun heq => absurd heq.symm hc

/-- Try to match the regex `\[SOURCE:([^\]]+)\]` at the head of `s`
(the greedy `[^\]]+` cannot cross a `]`, so a match always ends at the
first `]` after the head).  Returns the captured id and the rest of the
string after the match. -/
def matchMarker (s : Str) : Option (Str × Str) :=
  if s.take 8 = markerHead then
    match grabBracketed (s.drop 8) with
    | some (id, rest) => if id = [] then none else some (id, rest)
    | none => none
  else none

theorem matchMarker_some {s id rest : Str} (h : matchMarker s = some (id, rest)) :
    s = markerHead ++ id ++ ']' :: rest ∧ id ≠ [] ∧ ']' ∉ id := by
  unfold matchMarker at h
  by_cases hp : s.take 8 = markerHead
  · rw [if_pos hp] at h
    rcases hg : grabBracketed (s.drop 8) with _ | ⟨id0, rest0⟩ <;> rw [hg] at h <;>
      dsimp only at h
    · simp at h
    · by_cases hid : id0 = []
      · simp [hid] at h
      · rw [if_neg hid] at h
        simp only [Option.some.injEq, Prod.mk.injEq] at h
        obtain ⟨h1, h2⟩ := h
        subst h1; subst h2
        obtain ⟨he, hni⟩ := grabBracketed_some hg
        refine ⟨?_, hid, hni⟩
        conv_lhs => rw [← List.take_append_drop 8 s, hp, he]
        simp
  · rw [if_neg hp] at h; simp at h

theorem matchMarker_length {s id rest : Str} (h : matchMarker s = some (id, rest)) :
    rest.length + 10 ≤ s.length := by
  obtain ⟨he, hid, -⟩ := matchMarker_some h
  have : s.length = markerHead.length + id.length + (rest.length + 1) := by
    rw [he]; simp [markerHead]; omega
  have hidlen : 1 ≤ id.length := by
    cases id with
    | nil => exact absurd rfl hid
    | cons _ _ => simp
  simp [markerHead] at this
  omega

/-- Fuel-indexed scan implementing `re.findall` + `re.sub` for the pattern
`\[SOURCE:([^\]]+)\]`: leftmost, non-overlapping matches are removed from the
text and their captured ids collected in order.  `fuel ≥ s.length` makes the
fuel irrelevant. -/
def scanMarkersAux : Nat → Str → Str × List Str
  | 0, _ => ([], [])
  | _ + 1, [] => ([], [])
  | fuel + 1, c :: cs =>
    match matchMarker (c :: cs) with
    | some (id, rest) =>
      let p := scanMarkersAux fuel rest
      (p.1, id :: p.2)
    | none =>
      let p := scanMarkersAux fuel cs
      (c :: p.1, p.2)

def scanMarkers (s : Str) : Str × List Str := scanMarkersAux s.length s

theorem scanMarkersAux_fuel_irrel :
    ∀ n f₁ f₂ (s : Str), s.length ≤ f₁ → s.length ≤ f₂ → s.length ≤ n →
      scanMarkersAux f₁ s = scanMarkersAux f₂ s := by
  intro n
  induction n with
  | zero =>
    intro f₁ f₂ s h1 h2 hn
    have : s = [] := List.length_eq_zero.mp (Nat.le_zero.mp hn)
    subst this
    cases f₁ <;> cases f₂ <;> rfl
  | succ n ih =>
    intro f₁ f₂ s h1 h2 hn
    match s with
    | [] => cases f₁ <;> cases f₂ <;> rfl
    | c :: cs =>
      match f₁, f₂ with
      | f₁ + 1, f₂ + 1 =>
        simp only [scanMarkersAux]
        rcases hm : matchMarker (c :: cs) with _ | ⟨id, rest⟩ <;> dsimp only
        · have hcs₁ : cs.length ≤ f₁ := by simp at h1; omega
          have hcs₂ : cs.length ≤ f₂ := by simp at h2; omega
          have hcsn : cs.length ≤ n := by simp at hn; omega
          rw [ih f₁ f₂ cs hcs₁ hcs₂ hcsn]
        · have hr := matchMarker_length hm
          simp only [List.length_cons] at h1 h2 hn hr
          have hr₁ : rest.length ≤ f₁ := by omega
          have hr₂ : rest.length ≤ f₂ := by omega
          have hrn : rest.length ≤ n := by omega
          rw [ih f₁ f₂ rest hr₁ hr₂ hrn]

theorem scanMarkersAux_eq_scanMarkers {f : Nat} {s : Str} (h : s.length ≤ f) :
    scanMarkersAux f s = scanMarkers s :=
  scanMarkersAux_fuel_irrel s.length f s.length s h (Nat.le_refl _) (Nat.le_refl _)

theorem scanMarkers_nil : scanMarkers [] = ([], []) := rfl

theorem scanMarkers_cons_noMatch {c : Char} {cs : Str}
    (h : matchMarker (c :: cs) = none) :
    scanMarkers (c :: cs) = ((c :: (scanMarkers cs).1), (scanMarkers cs).2) := by
  unfold scanMarkers
  simp only [List.length_cons, scanMarkersAux, h]

theorem scanMarkers_cons_match {c : Char} {cs id rest : Str}
    (h : matchMarker (c :: cs) = some (id, rest)) :
    scanMarkers (c :: cs) = ((scanMarkers rest).1, id :: (scanMarkers rest).2) := by
  have hr := matchMarker_length h
  simp only [List.length_cons] at hr
  unfold scanMarkers
  conv_lhs => rw [show (c :: cs).length = cs.length + 1 from rfl]
  simp only [scanMarkersAux, h]
  rw [@scanMarkersAux_eq_scanMarkers cs.length rest (by omega)]
  rfl

/-! ### `chat_sdk_service.parse_citations_from_content` / `filter_citations_by_usage` -/

/-- `parse_citations_from_content(content)`: extract all
`[SOURCE:chunk_id]` markers (leftmost, non-overlapping, ids in order of
occurrence), remove them, then normalize whitespace.  Returns
(cleaned content, cited chunk ids). -/
def parse_citations_from_content (content : Str) : Str × List Str :=
  let p := scanMarkers content
  (normalizeWs p.1, p.2)

/-- The citation object assembled in `process_chat_stream` (fields used by
the extraction step). -/
structure Citation where
  id : Str
  chunk_id : Str
  document_id : Str
  document_title : Str
  content_preview : Str
deriving DecidableEq, Repr

/-- `filter_citations_by_usage(all_citations, cited_chunk_ids)`: keep, in
candidate order, exactly the citations whose `chunk_id` was cited. -/
def filter_citations_by_usage (all_citations : List Citation)
    (cited_chunk_ids : List Str) : List Citation :=
  all_citations.filter (fun c => c.chunk_id ∈ cited_chunk_ids)

/-- Decision procedure for "the text contains a substring matching the
literal marker pattern `[SOURCE:...]`": the scan finds at least one match. -/
def hasMarkerSubstr (s : Str) : Bool :=
  !(scanMarkers s).2.isEmpty

/-- Well-formed marker text: an alternation of `[`-free gaps and markers
`[SOURCE:id]` whose ids contain neither `]` nor `[`.  The index list
collects the marker ids in order. -/
inductive MarkedText : Str → List Str → Prop
  | gap (g : Str) (hg : '[' ∉ g) : MarkedText g []
  | seg (g id rest : Str) (ids : List Str)
      (hg : '[' ∉ g) (hne : id ≠ []) (hrb : ']' ∉ id) (hlb : '[' ∉ id)
      (h : MarkedText rest ids) :
      MarkedText (g ++ markerOf id ++ rest) (id :: ids)

theorem matchMarker_not_lbracket {c : Char} {cs : Str} (h : c ≠ '[') :
    matchMarker (c :: cs) = none := by
  unfold matchMarker
  rw [if_neg]
  intro hc
  have : (c :: cs).take 8 = c :: cs.take 7 := rfl
  rw [this, markerHead] at hc
  exact h (List.head_eq_of_cons_eq hc)

theorem matchMarker_markerOf {id rest : Str} (hne : id ≠ []) (hrb : ']' ∉ id) :
    matchMarker (markerOf id ++ rest) = some (id, rest) := by
  have hgrab : ∀ t : Str, ']' ∉ t → grabBracketed (t ++ ']' :: rest) = some (t, rest) := by
    intro t
    induction t with
    | nil => intro _; simp [grabBracketed]
    | cons c cs ih =>
      intro hnb
      rw [List.mem_cons] at hnb
      push_neg at hnb
      have hc : c ≠ ']' := Ne.symm hnb.1
      have hcs : ']' ∉ cs := hnb.2
      simp only [List.cons_append, grabBracketed, if_neg hc, List.append_eq, ih hcs]
  unfold matchMarker
  have htake : (markerOf id ++ rest).take 8 = markerHead := by
    have : markerOf id ++ rest = markerHead ++ (id ++ ']' :: rest) := by
      simp [markerOf]
    rw [this]
    rw [List.take_append_of_le_length (by simp [markerHead])]
    rfl
  have hdrop : (markerOf id ++ rest).drop 8 = id ++ ']' :: rest := by
    have : markerOf id ++ rest = markerHead ++ (id ++ ']' :: rest) := by
      simp [markerOf]
    rw [this]
    have hlen : (markerHead : Str).length = 8 := rfl
    rw [List.drop_append_of_le_length (by simp [markerHead])]
    simp [markerHead]
  rw [if_pos htake, hdrop, hgrab id hrb]
  dsimp only
  rw [if_neg hne]

/-- Scanning a `[`-free gap keeps it verbatim and finds no marker. -/
theorem scanMarkers_gap_append (g : Str) (hg : '[' ∉ g) (rest : Str) :
    scanMarkers (g ++ rest) = (g ++ (scanMarkers rest).1, (scanMarkers rest).2) := by
  induction g with
  | nil => simp
  | cons c cs ih =>
    rw [List.mem_cons] at hg
    push_neg at hg
    have hc : c ≠ '[' := Ne.symm hg.1
    have hcs : '[' ∉ cs := hg.2
    rw [List.cons_append, scanMarkers_cons_noMatch (matchMarker_not_lbracket hc), ih hcs]
    simp

/-- Scanning marked text removes exactly the markers and collects their ids. -/
theorem scanMarkers_of_markedText {s : Str} {ids : List Str} (h : MarkedText s ids) :
    (scanMarkers s).2 = ids ∧ '[' ∉ (scanMarkers s).1 := by
  induction h with
  | gap g hg =>
    have h0 := scanMarkers_gap_append g hg []
    rw [List.append_nil] at h0
    rw [h0, scanMarkers_nil]
    exact ⟨rfl, by simpa using hg⟩
  | seg g id rest ids hg hne hrb hlb h ih =>
    rw [List.append_assoc, scanMarkers_gap_append g hg (markerOf id ++ rest)]
    have hm : scanMarkers (markerOf id ++ rest)
        = ((scanMarkers rest).1, id :: (scanMarkers rest).2) := by
      cases hmk : markerOf id ++ rest with
      | nil => simp [markerOf, markerHead] at hmk
      | cons c cs =>
        have hmm0 : matchMarker (c :: cs) = some (id, rest) := by
          rw [← hmk]
          exact matchMarker_markerOf hne hrb
        rw [scanMarkers_cons_match hmm0]
    rw [hm]
    dsimp only
    refine ⟨by rw [ih.1], ?_⟩
    simp only [List.mem_append]
    rintro (hcg | hcrest)
    · exact hg hcg
    · exact ih.2 hcrest

theorem collapseSpTab_not_mem {a : Char} (ha : a ≠ ' ') :
    ∀ (b : Bool) (s : Str), a ∉ s → a ∉ collapseSpTab b s := by
  intro b s
  induction s generalizing b with
  | nil => intro _; simp [collapseSpTab]
  | cons c cs ih =>
    intro hs
    rw [List.mem_cons] at hs
    push_neg at hs
    by_cases hc : c = ' ' || c = '\t'
    · simp only [collapseSpTab, if_pos hc]
      cases b
      · show a ∉ ' ' :: collapseSpTab true cs
        rw [List.mem_cons]
        push_neg
        exact ⟨ha, ih true hs.2⟩
      · show a ∉ collapseSpTab true cs
        exact ih true hs.2
    · simp only [collapseSpTab, if_neg hc]
      rw [List.mem_cons]
      push_neg
      exact ⟨hs.1, ih false hs.2⟩

theorem pyStrip_subset (s : Str) : ∀ a, a ∈ pyStrip s → a ∈ s := by
  intro a ha
  unfold pyStrip at ha
  rw [List.mem_reverse] at ha
  have h1 := (List.dropWhile_sublist isPyWs).subset ha
  rw [List.mem_reverse] at h1
  exact (List.dropWhile_sublist isPyWs).subset h1

theorem collapseNl_not_mem {a : Char} (ha : a ≠ '\n') :
    ∀ (n : Nat) (s : Str), a ∉ s → a ∉ collapseNlAux n s := by
  intro n s
  induction s generalizing n with
  | nil =>
    intro _
    simp only [collapseNlAux, emitNl]
    intro hmem
    exact ha (List.eq_of_mem_replicate hmem)
  | cons c cs ih =>
    intro hs
    rw [List.mem_cons] at hs
    push_neg at hs
    by_cases hc : c = '\n'
    · simp only [collapseNlAux, if_pos hc]
      exact ih (n + 1) hs.2
    · simp only [collapseNlAux, if_neg hc]
      rw [List.mem_append, List.mem_cons]
      push_neg
      refine ⟨?_, hs.1, ih 0 hs.2⟩
      intro hmem
      exact ha (List.eq_of_mem_replicate hmem)

/-- Whitespace normalization never introduces a `[` character. -/
theorem normalizeWs_no_lbracket {s : Str} (h : '[' ∉ s) : '[' ∉ normalizeWs s := by
  unfold normalizeWs collapseNl
  apply collapseNl_not_mem (by decide)
  intro hmem
  exact collapseSpTab_not_mem (by decide) false s h (pyStrip_subset _ _ hmem)

/-- A `[`-free string contains no marker substring. -/
theorem hasMarkerSubstr_of_no_lbracket {s : Str} (h : '[' ∉ s) :
    hasMarkerSubstr s = false := by
  unfold hasMarkerSubstr
  have h0 := scanMarkers_gap_append s h []
  rw [List.append_nil] at h0
  rw [h0, scanMarkers_nil]
  rfl

/-! ### Claims C3 and C5: citation integrity -/

/-- A generated text in which removing the two-level marker splices the
surrounding fragments into a fresh marker-shaped substring. -/
def spliceContent : Str := "[SOU[SOURCE:a]RCE:b]".toList

/-- A citation candidate whose `chunk_id` is the marker id `a`. -/
def candA : Citation :=
  ⟨"c1".toList, ['a'], "doc-a".toList, "Doc A".toList, "".toList⟩

/-- Claim C3 counterexample: `spliceContent` has exactly one marker
occurrence (id `a`, a valid candidate), yet after extraction the cleaned
text is the literal marker `[SOURCE:b]` — marker removal spliced the
flanking fragments into a new marker-shaped substring, so the cleaned text
does contain a substring matching `[SOURCE:...]`. -/
theorem citation_marker_splice_counterexample :
    (∀ id ∈ (parse_citations_from_content spliceContent).2,
        id ∈ ([candA].map Citation.chunk_id))
    ∧ (parse_citations_from_content spliceContent).1 = "[SOURCE:b]".toList
    ∧ hasMarkerSubstr (parse_citations_from_content spliceContent).1 = true := by
  decide

/-- Claim C3 (amended): for generated text that alternates `[`-free gaps
with markers `[SOURCE:id]` (ids free of `[` and `]`), all of whose ids occur
among the citation candidates, extraction returns exactly those ids in
order, the cleaned text contains no marker substring, and the filtered
citation list's chunk_ids are exactly the referenced ids. -/
theorem citation_extraction_integrity_amended
    (content : Str) (ids : List Str) (cands : List Citation)
    (hm : MarkedText content ids)
    (hsub : ∀ id ∈ ids, id ∈ cands.map Citation.chunk_id) :
    (parse_citations_from_content content).2 = ids
    ∧ hasMarkerSubstr (parse_citations_from_content content).1 = false
    ∧ ∀ x, x ∈ (filter_citations_by_usage cands
        (parse_citations_from_content content).2).map Citation.chunk_id ↔ x ∈ ids := by
  obtain ⟨h2, h1⟩ := scanMarkers_of_markedText hm
  have hp2 : (parse_citations_from_content content).2 = ids := h2
  have hp1 : (parse_citations_from_content content).1
      = normalizeWs (scanMarkers content).1 := rfl
  refine ⟨hp2, ?_, ?_⟩
  · rw [hp1]
    exact hasMarkerSubstr_of_no_lbracket (normalizeWs_no_lbracket h1)
  · intro x
    rw [hp2]
    unfold filter_citations_by_usage
    simp only [List.mem_map, List.mem_filter, decide_eq_true_eq]
    constructor
    · rintro ⟨c, ⟨hcmem, hcid⟩, hcx⟩
      exact hcx ▸ hcid
    · intro hx
      obtain ⟨c, hcmem, hcid⟩ := List.mem_map.mp (hsub x hx)
      refine ⟨c, ⟨hcmem, ?_⟩, hcid⟩
      rw [hcid]
      exact hx

/-- Concrete well-formed marker text for the C3 witness. -/
def witnessMarkedContent : Str := "Hi ".toList ++ markerOf ['a'] ++ " yo".toList

/-- Citation candidate for the C3 witness. -/
def witnessCand : Citation :=
  ⟨"cw".toList, ['a'], "doc-a".toList, "A".toList, "".toList⟩

/-- Witness for the amended C3 theorem at a concrete input. -/
theorem citation_extraction_integrity_witness :
    MarkedText witnessMarkedContent [['a']]
    ∧ ((parse_citations_from_content witnessMarkedContent).2 = [['a']]
      ∧ hasMarkerSubstr (parse_citations_from_content witnessMarkedContent).1 = false
      ∧ ∀ x, x ∈ (filter_citations_by_usage [witnessCand]
          (parse_citations_from_content witnessMarkedContent).2).map Citation.chunk_id
            ↔ x ∈ [['a']]) := by
  have hm : MarkedText witnessMarkedContent [['a']] :=
    MarkedText.seg "Hi ".toList ['a'] " yo".toList [] (by decide) (by decide)
      (by decide) (by decide) (MarkedText.gap " yo".toList (by decide))
  exact ⟨hm, citation_extraction_integrity_amended _ _ [witnessCand] hm (by decide)⟩

/-- The spec scenario input for claim C5. -/
def scenarioContent : Str :=
  "Rent is 1500 [SOURCE:chunk-documents-doc-1]. Quiet area.".toList

/-- Candidate citation for doc-1 in the C5 scenario. -/
def scenarioCand1 : Citation :=
  ⟨"id1".toList, "chunk-documents-doc-1".toList, "doc-1".toList,
    "Doc 1".toList, "".toList⟩

/-- Candidate citation for doc-2 in the C5 scenario. -/
def scenarioCand2 : Citation :=
  ⟨"id2".toList, "chunk-documents-doc-2".toList, "doc-2".toList,
    "Doc 2".toList, "".toList⟩

/-- Claim C5 counterexample: on the spec's scenario input the cleaned text
is NOT the claimed `"Rent is 1500. Quiet area."` — marker removal leaves the
space that preceded the marker, producing a stray space before the period. -/
theorem citation_scenario_counterexample :
    (parse_citations_from_content scenarioContent).1
      ≠ "Rent is 1500. Quiet area.".toList := by
  decide

/-- Claim C5 (amended): the scenario yields exactly the doc-1 citation and
the cleaned text `"Rent is 1500 . Quiet area."` (with the stray space the
code leaves where the marker was removed). -/
theorem citation_scenario_amended :
    parse_citations_from_content scenarioContent
      = ("Rent is 1500 . Quiet area.".toList, ["chunk-documents-doc-1".toList])
    ∧ filter_citations_by_usage [scenarioCand1, scenarioCand2]
        (parse_citations_from_content scenarioContent).2 = [scenarioCand1] := by
  decide

/-! ### `base_adapter.truncate_to_token_limit` and the documents adapter -/

/-- The literal truncation notice appended when a formatted block is cut. -/
def truncationMarker : Str :=
  "\n\n[...Contenu tronqué pour respecter la limite de tokens...]".toList

/-- `BaseSourceAdapter.truncate_to_token_limit(text, max_tokens)`:
hard character truncation at `max_tokens * 4` characters plus the marker. -/
def truncate_to_token_limit (text : Str) (max_tokens : Nat) : Str :=
  let max_chars := max_tokens * 4
  if text.length ≤ max_chars then text
  else text.take max_chars ++ truncationMarker

/-- A data item as returned by an adapter's `fetch_data` (the dict fields the
retrieval code reads; an absent key is `none`).  `page_number` holds the
value as rendered into the f-string. -/
structure FetchItem where
  id : Option Str
  name : Option Str
  title : Option Str
  content : Str
  doc_type : Option Str
  page_number : Option Str
deriving DecidableEq, Repr

/-- `DocumentsAdapter.format_for_llm(data)`: markdown block built from the
item fields, truncated at the default budget of 10000 tokens. -/
def documents_format_for_llm (data : FetchItem) : Str :=
  let formatted :=
    "# Document: ".toList ++ data.title.getD []
    ++ "\n\n**Type**: ".toList ++ data.doc_type.getD "N/A".toList
    ++ "\n**Page**: ".toList ++ data.page_number.getD "N/A".toList
    ++ "\n\n## Contenu\n".toList ++ data.content ++ "\n".toList
  truncate_to_token_limit formatted 10000

/-- Claim C9: for every input text and token budget, the output of
`truncate_to_token_limit` never exceeds `max_tokens * 4` characters plus the
truncation marker's length; in particular every adapter's `format_for_llm`
(each returns `truncate_to_token_limit(formatted)`, shown here for the
documents adapter at the default budget of 10000 tokens = 40000 characters)
obeys the bound. -/
theorem format_for_llm_truncation_bound :
    (∀ (text : Str) (max_tokens : Nat),
      (truncate_to_token_limit text max_tokens).length
        ≤ max_tokens * 4 + truncationMarker.length)
    ∧ ∀ item : FetchItem,
      (documents_format_for_llm item).length ≤ 40000 + truncationMarker.length := by
  have hmain : ∀ (text : Str) (max_tokens : Nat),
      (truncate_to_token_limit text max_tokens).length
        ≤ max_tokens * 4 + truncationMarker.length := by
    intro text max_tokens
    unfold truncate_to_token_limit
    by_cases h : text.length ≤ max_tokens * 4
    · rw [if_pos h]
      omega
    · rw [if_neg h]
      rw [List.length_append, List.length_take]
      omega
  exact ⟨hmain, fun item => hmain _ 10000⟩

/-! ### `rag_sdk_service.search_rag_sources` and the chat retrieval phase -/

/-- `SourceType` enum from `chat_sdk` schemas. -/
inductive SourceType
  | documents
  | leases
  | properties
  | kpis
  | tenants
  | owners
deriving DecidableEq, Repr

/-- The `.value` string of each `SourceType` member. -/
def SourceType.value : SourceType → Str
  | .documents => "documents".toList
  | .leases => "leases".toList
  | .properties => "properties".toList
  | .kpis => "kpis".toList
  | .tenants => "tenants".toList
  | .owners => "owners".toList

/-- `RAGSearchResult` (fields the retrieval code sets). -/
structure RAGSearchResult where
  chunk_id : Str
  document_id : Str
  document_title : Str
  content : Str
  source_type : SourceType
deriving DecidableEq, Repr

/-- Decimal rendering of a natural number (Python f-string `{len(...)}`). -/
def natToStr (n : Nat) : Str := (toString n).toList

/-- Python `str.title()`: uppercase a letter that starts an alphabetic run,
lowercase the rest. -/
def pyTitleAux : Bool → Str → Str
  | _, [] => []
  | prevAlpha, c :: cs =>
    if c.isAlpha then
      (if prevAlpha then c.toLower else c.toUpper) :: pyTitleAux true cs
    else c :: pyTitleAux false cs

def pyTitleCase (s : Str) : Str := pyTitleAux false s

/-- Python truthiness of an optional string (`None` and `""` are falsy),
for the `item.get('name') or item.get('title') or default` chain. -/
def pyTruthy (v : Option Str) : Option Str :=
  match v with
  | none => none
  | some s => if s = [] then none else some s

/-- The inner item loop of `search_rag_sources`: each item is formatted and
wrapped into a `RAGSearchResult`; `k` is `len(all_results)` at the time the
item is processed (it feeds the fallback `item_id`). -/
def buildResults (format : SourceType → FetchItem → Str) (st : SourceType) :
    List FetchItem → Nat → List RAGSearchResult
  | [], _ => []
  | item :: items, k =>
    let formatted_content := format st item
    let item_id := item.id.getD (st.value ++ '-' :: natToStr k)
    let title := (pyTruthy item.name).getD ((pyTruthy item.title).getD
      (pyTitleCase st.value ++ ' ' :: item_id))
    { chunk_id := "chunk-".toList ++ st.value ++ '-' :: item_id,
      document_id := item_id,
      document_title := title,
      content := formatted_content,
      source_type := st } :: buildResults format st items (k + 1)

/-- The per-source loop of `search_rag_sources`: a source whose adapter
raises is skipped (`except ... continue`); otherwise its results are
appended. -/
def searchLoop (fetch : SourceType → Str → Nat → Except Str (List FetchItem))
    (format : SourceType → FetchItem → Str) (query : Str) (limit : Nat) :
    List SourceType → List RAGSearchResult → List RAGSearchResult
  | [], acc => acc
  | st :: rest, acc =>
    match fetch st query limit with
    | .error _ => searchLoop fetch format query limit rest acc
    | .ok items =>
      searchLoop fetch format query limit rest
        (acc ++ buildResults format st items acc.length)

/-- `search_rag_sources(query, organization_id, source_types, ..., limit)`.
`fetch`/`format` stand for the adapter registry (`adapter_factory`); the
first line is Python `source_types or [SourceType.DOCUMENTS]`, so both
`None` and the empty list fall back to the documents source. -/
def search_rag_sources (fetch : SourceType → Str → Nat → Except Str (List FetchItem))
    (format : SourceType → FetchItem → Str) (query : Str)
    (source_types : Option (List SourceType)) (limit : Nat) : List RAGSearchResult :=
  let active_source_types :=
    match source_types with
    | none => [SourceType.documents]
    | some [] => [SourceType.documents]
    | some l => l
  (searchLoop fetch format query limit active_source_types []).take limit

/-- `ChatMode` enum. -/
inductive ChatMode
  | normal
  | ragOnly
  | ragEnhanced
deriving DecidableEq, Repr

/-- The retrieval phase of `process_chat_stream` (steps 2 of the handler):
search is invoked only in a RAG mode and only when the caller actually
requested at least one source.  Returns the retrieved results and whether
`search_rag_sources` was called at all. -/
def process_chat_stream_retrieval
    (fetch : SourceType → Str → Nat → Except Str (List FetchItem))
    (format : SourceType → FetchItem → Str) (mode : ChatMode) (query : Str)
    (requested_sources : List SourceType) (limit : Nat) :
    List RAGSearchResult × Bool :=
  if (mode = ChatMode.ragOnly ∨ mode = ChatMode.ragEnhanced)
      ∧ requested_sources ≠ [] then
    (search_rag_sources fetch format query (some requested_sources) limit, true)
  else ([], false)

/-- Mock document 1 returned by `DocumentsAdapter.fetch_data`. -/
def mockDoc1 : FetchItem :=
  { id := some "doc-001".toList,
    name := none,
    title := some "Contrat de bail - Appartement Paris 15ème".toList,
    content := "Le bail de l'appartement situé 15 rue de la Paix, Paris 15ème, prévoit un loyer mensuel de 1,500€. La durée du bail est de 3 ans avec une clause de révision annuelle selon l'indice IRL. Le dépôt de garantie est fixé à 1 mois de loyer.".toList,
    doc_type := some "lease_contract".toList,
    page_number := some "1".toList }

/-- Mock document 2 returned by `DocumentsAdapter.fetch_data`. -/
def mockDoc2 : FetchItem :=
  { id := some "doc-002".toList,
    name := none,
    title := some "État des lieux - Immeuble Lyon Centre".toList,
    content := "L'état des lieux d'entrée a été réalisé le 15 janvier 2024. Les murs sont en bon état, le parquet présente quelques rayures légères. La cuisine est équipée et fonctionnelle. Les radiateurs électriques sont en bon état de fonctionnement.".toList,
    doc_type := some "inventory".toList,
    page_number := some "2".toList }

def documentsKw1 : List Str :=
  ["bail".toList, "loyer".toList, "location".toList, "contrat".toList]

def documentsKw2 : List Str :=
  ["état".toList, "lieux".toList, "inventaire".toList]

/-- The per-document filter in `DocumentsAdapter.fetch_data` (three-way
branch on the query's keywords). -/
def mockDocKeep (ql : Str) (doc : FetchItem) : Bool :=
  if documentsKw1.any (fun kw => hasSubstr ql kw) then
    hasSubstr (strLower (doc.title.getD [])) "bail".toList
      || hasSubstr (strLower doc.content) "loyer".toList
  else if documentsKw2.any (fun kw => hasSubstr ql kw) then
    hasSubstr (strLower (doc.title.getD [])) "état".toList
  else true

/-- `DocumentsAdapter.fetch_data(organization_id, query, filters, limit)`:
mock corpus filtered by the query, capped at `limit`. -/
def documents_fetch_data (query : Str) (limit : Nat) : List FetchItem :=
  (([mockDoc1, mockDoc2]).filter (mockDocKeep (strLower query))).take limit

/-- Adapter registry instantiated at the documents adapter (the only
adapter the empty-source-list counterexample ever invokes; the remaining
registry slots answer with an exception, which `search_rag_sources` skips). -/
def documentsAdapterFetch : SourceType → Str → Nat → Except Str (List FetchItem) :=
  fun st query limit =>
    match st with
    | .documents => .ok (documents_fetch_data query limit)
    | _ => .error "adapter not exercised".toList

def documentsAdapterFormat : SourceType → FetchItem → Str :=
  fun _ item => documents_format_for_llm item

/-- Claim C1 counterexample: calling `search_rag_sources` with an EMPTY
source-type list does not return the empty list — Python's
`source_types or [SourceType.DOCUMENTS]` treats `[]` as falsy, so the
search silently widens to the default documents source and returns its
two mock hits. -/
theorem search_empty_sources_counterexample :
    search_rag_sources documentsAdapterFetch documentsAdapterFormat
        "q".toList (some []) 10 ≠ []
    ∧ (search_rag_sources documentsAdapterFetch documentsAdapterFormat
        "q".toList (some []) 10).map RAGSearchResult.source_type
      = [SourceType.documents, SourceType.documents] := by
  decide

/-- Claim C1 (amended): `search_rag_sources` itself maps an empty
source-type list to the default `[DOCUMENTS]`; the empty-selection guard
lives in its chat-layer caller: the retrieval phase of
`process_chat_stream` performs no search call and yields zero results
whenever the requested source list is empty. -/
theorem empty_source_guard_amended :
    (∀ fetch format (query : Str) (limit : Nat),
      search_rag_sources fetch format query (some []) limit
        = search_rag_sources fetch format query (some [SourceType.documents]) limit)
    ∧ (∀ fetch format mode (query : Str) (limit : Nat),
      process_chat_stream_retrieval fetch format mode query [] limit = ([], false)) := by
  constructor
  · intro fetch format query limit
    rfl
  · intro fetch format mode query limit
    simp [process_chat_stream_retrieval]

/-! ### `qdrant_service.ensure_collection_exists` (claim C4) -/

/-- Outcome of one call into the Qdrant client (success or a raised
exception carrying its message). -/
inductive PyOutcome
  | ok
  | exc (msg : Str)
deriving DecidableEq, Repr

/-- `ensure_collection_exists(collection_name, ...)` given the outcome of
`client.get_collection` and (if reached) of `client.create_collection`.
Returns (the call's result: `Except` models an uncaught exception, `Bool`
the Python return value) and whether `create_collection` was invoked. -/
def ensure_collection_exists (getRes : PyOutcome) (createRes : PyOutcome) :
    Except Str Bool × Bool :=
  match getRes with
  | .ok => (.ok true, false)
  | .exc e =>
    if hasSubstr (strLower e) "doesn't exist".toList
        || hasSubstr (strLower e) "not found".toList then
      match createRes with
      | .ok => (.ok true, true)
      | .exc create_error => (.error create_error, true)
    else (.error e, false)

/-- Claim C4 counterexample: when the collection is absent at the
`get_collection` check and a concurrent creator wins the race so that
`create_collection` fails with "already exists", the call does NOT report
success — it re-raises the creation error. -/
theorem ensure_collection_race_counterexample :
    (ensure_collection_exists
        (PyOutcome.exc "Collection test doesn't exist".toList)
        (PyOutcome.exc "Collection test already exists".toList)).1
      = Except.error "Collection test already exists".toList := by
  rfl

/-- Claim C4 (amended): `ensure_collection_exists` is idempotent when the
collection already exists — it returns True without attempting creation —
but any creation failure, including the "already exists" raised when a
concurrent creator made the collection first, propagates as an exception
instead of being treated as success. -/
theorem ensure_collection_amended :
    (∀ createRes, ensure_collection_exists PyOutcome.ok createRes
      = (Except.ok true, false))
    ∧ ∀ e create_error : Str,
      (hasSubstr (strLower e) "doesn't exist".toList
        || hasSubstr (strLower e) "not found".toList) = true →
      ensure_collection_exists (PyOutcome.exc e) (PyOutcome.exc create_error)
        = (Except.error create_error, true) := by
  constructor
  · intro createRes
    rfl
  · intro e create_error h
    unfold ensure_collection_exists
    dsimp only
    rw [if_pos h]

/-- Witness for the amended C4 theorem at concrete inputs. -/
theorem ensure_collection_amended_witness :
    ensure_collection_exists (PyOutcome.exc "collection xyz not found".toList)
        (PyOutcome.exc "already exists".toList)
      = (Except.error "already exists".toList, true) :=
  ensure_collection_amended.2 "collection xyz not found".toList
    "already exists".toList (by decide)

/-! ### `qdrant_service.add_documents` (claim C7) -/

/-- The statistics dict built by `add_documents`. -/
structure UpsertStats where
  total : Nat
  processed : Nat
  errors : Nat
  batches : Nat
deriving DecidableEq, Repr

/-- `documents[i:i+batch_size]` slices taken by
`for i in range(0, total_docs, batch_size)` (fuel-indexed; `fuel ≥ length`
suffices for any positive batch size). -/
def batchListAux {α : Type} (b : Nat) : Nat → List α → List (List α)
  | 0, _ => []
  | _ + 1, [] => []
  | fuel + 1, x :: xs => (x :: xs.take (b - 1)) :: batchListAux b fuel (xs.drop (b - 1))

def batchList {α : Type} (b : Nat) (l : List α) : List (List α) :=
  batchListAux b l.length l

/-- The per-batch loop of `add_documents`: every batch increments
`batches`; a successful provider call adds the batch's size to `processed`;
a raised provider error is caught and counted in `errors`, and the loop
continues with the next batch.  `upsertOk i` is the oracle for the outcome
of the provider call on the i-th batch. -/
def addDocsLoop {α : Type} (upsertOk : Nat → Bool) :
    Nat → List (List α) → UpsertStats → UpsertStats
  | _, [], s => s
  | i, batch :: rest, s =>
    let s1 : UpsertStats := { s with batches := s.batches + 1 }
    let s2 : UpsertStats :=
      if upsertOk i then { s1 with processed := s1.processed + batch.length }
      else { s1 with errors := s1.errors + 1 }
    addDocsLoop upsertOk (i + 1) rest s2

/-- `add_documents(collection_name, documents, embedder, batch_size)`
(the batching part, after `ensure_collection_exists`): zero documents
short-circuit with empty stats, otherwise all batches are attempted. -/
def add_documents {α : Type} (documents : List α) (upsertOk : Nat → Bool)
    (batch_size : Nat) : UpsertStats :=
  if documents.length = 0 then ⟨0, 0, 0, 0⟩
  else addDocsLoop upsertOk 0 (batchList batch_size documents)
    ⟨documents.length, 0, 0, 0⟩

/-- Total number of documents sitting in batches whose provider call fails. -/
def failedDocsLen {α : Type} (upsertOk : Nat → Bool) :
    Nat → List (List α) → Nat
  | _, [] => 0
  | i, batch :: rest =>
    (if upsertOk i then 0 else batch.length) + failedDocsLen upsertOk (i + 1) rest

/-- Number of batches whose provider call fails. -/
def failedBatchCount {α : Type} (upsertOk : Nat → Bool) :
    Nat → List (List α) → Nat
  | _, [] => 0
  | i, _ :: rest =>
    (if upsertOk i then 0 else 1) + failedBatchCount upsertOk (i + 1) rest

theorem addDocsLoop_spec {α : Type} (upsertOk : Nat → Bool) :
    ∀ (batches : List (List α)) (i : Nat) (s : UpsertStats),
      (addDocsLoop upsertOk i batches s).processed + failedDocsLen upsertOk i batches
        = s.processed + (batches.map List.length).sum
      ∧ (addDocsLoop upsertOk i batches s).errors
        = s.errors + failedBatchCount upsertOk i batches
      ∧ (addDocsLoop upsertOk i batches s).batches = s.batches + batches.length
      ∧ (addDocsLoop upsertOk i batches s).total = s.total := by
  intro batches
  induction batches with
  | nil =>
    intro i s
    simp [addDocsLoop, failedDocsLen, failedBatchCount]
  | cons batch rest ih =>
    intro i s
    simp only [addDocsLoop, failedDocsLen, failedBatchCount, List.map_cons,
      List.sum_cons, List.length_cons]
    by_cases hok : upsertOk i
    · simp only [if_pos hok]
      obtain ⟨h1, h2, h3, h4⟩ := ih (i + 1)
        { total := s.total, processed := s.processed + batch.length,
          errors := s.errors, batches := s.batches + 1 }
      dsimp only at h1 h2 h3 h4
      exact ⟨by omega, by omega, by omega, h4⟩
    · simp only [if_neg hok]
      obtain ⟨h1, h2, h3, h4⟩ := ih (i + 1)
        { total := s.total, processed := s.processed,
          errors := s.errors + 1, batches := s.batches + 1 }
      dsimp only at h1 h2 h3 h4
      exact ⟨by omega, by omega, by omega, h4⟩

theorem batchListAux_join {α : Type} (b : Nat) :
    ∀ (fuel : Nat) (l : List α), l.length ≤ fuel →
      (batchListAux b fuel l).flatten = l := by
  intro fuel
  induction fuel with
  | zero =>
    intro l hl
    have : l = [] := List.length_eq_zero.mp (Nat.le_zero.mp hl)
    subst this
    rfl
  | succ n ih =>
    intro l hl
    match l with
    | [] => rfl
    | x :: xs =>
      simp only [batchListAux, List.flatten_cons]
      have hdrop : (xs.drop (b - 1)).length ≤ n := by
        rw [List.length_drop]
        simp only [List.length_cons] at hl
        omega
      rw [ih _ hdrop]
      simp [List.take_append_drop]

theorem batchListAux_sizes {α : Type} (b : Nat) (hb : 0 < b) :
    ∀ (fuel : Nat) (l : List α) (batch : List α),
      batch ∈ batchListAux b fuel l → batch.length ≤ b := by
  intro fuel
  induction fuel with
  | zero =>
    intro l batch h
    simp [batchListAux] at h
  | succ n ih =>
    intro l batch h
    match l with
    | [] => simp [batchListAux] at h
    | x :: xs =>
      simp only [batchListAux, List.mem_cons] at h
      rcases h with h | h
      · subst h
        simp only [List.length_cons, List.length_take]
        omega
      · exact ih _ _ h

/-- Claim C7: bulk upsert is best-effort per batch.  Batches partition the
document list with each batch at most `batch_size` long; a failed batch is
counted in `errors` while every remaining batch is still attempted;
`processed` plus the documents of the failed batches equals the total; and
the function returns statistics (never an exception) whatever the per-batch
outcomes are. -/
theorem add_documents_best_effort {α : Type} (documents : List α)
    (upsertOk : Nat → Bool) (batch_size : Nat) (hb : 0 < batch_size) :
    (add_documents documents upsertOk batch_size).processed
        + failedDocsLen upsertOk 0 (batchList batch_size documents)
      = documents.length
    ∧ (add_documents documents upsertOk batch_size).errors
      = failedBatchCount upsertOk 0 (batchList batch_size documents)
    ∧ (add_documents documents upsertOk batch_size).batches
      = (batchList batch_size documents).length
    ∧ (add_documents documents upsertOk batch_size).total = documents.length
    ∧ (∀ batch ∈ batchList batch_size documents, batch.length ≤ batch_size)
    ∧ (batchList batch_size documents).flatten = documents := by
  have hjoin : (batchList batch_size documents).flatten = documents :=
    batchListAux_join batch_size documents.length documents (Nat.le_refl _)
  have hsum : ((batchList batch_size documents).map List.length).sum
      = documents.length := by
    conv_rhs => rw [← hjoin]
    rw [List.length_flatten]
  by_cases hz : documents.length = 0
  · have : documents = [] := List.length_eq_zero.mp hz
    subst this
    refine ⟨rfl, rfl, rfl, rfl, ?_, rfl⟩
    intro batch h
    simp [batchList, batchListAux] at h
  · unfold add_documents
    rw [if_neg hz]
    obtain ⟨h1, h2, h3, h4⟩ :=
      addDocsLoop_spec upsertOk (batchList batch_size documents) 0
        ⟨documents.length, 0, 0, 0⟩
    refine ⟨?_, ?_, ?_, h4, fun batch h => batchListAux_sizes batch_size hb _ _ _ h, hjoin⟩
    · rw [h1, hsum]; simp
    · rw [h2]; simp
    · rw [h3]; simp

/-- Per-batch oracle for the C7 witness: batch 0 succeeds, batch 1 fails. -/
def wUpsertOk : Nat → Bool := fun i => i == 0

/-- Witness for C7 at a concrete input: three documents, batch size two. -/
theorem add_documents_best_effort_witness :
    0 < 2
    ∧ ((add_documents [10, 20, 30] wUpsertOk 2).processed
          + failedDocsLen wUpsertOk 0 (batchList 2 [10, 20, 30]) = 3
      ∧ (add_documents [10, 20, 30] wUpsertOk 2).errors
        = failedBatchCount wUpsertOk 0 (batchList 2 [10, 20, 30])
      ∧ (add_documents [10, 20, 30] wUpsertOk 2).batches
        = (batchList 2 [10, 20, 30]).length
      ∧ (add_documents [10, 20, 30] wUpsertOk 2).total = 3
      ∧ (∀ batch ∈ batchList 2 [10, 20, 30], batch.length ≤ 2)
      ∧ (batchList 2 [10, 20, 30]).flatten = [10, 20, 30]) :=
  ⟨by decide, add_documents_best_effort [10, 20, 30] wUpsertOk 2 (by decide)⟩

/-! ### `qdrant_service.delete_by_document_id` (claim C6) -/

/-- A stored point as the delete path reads it: the point id, the optional
top-level `doc_id` payload field, and the optional nested
`metadata.doc_id` field (absent when `metadata` is missing or not a dict). -/
structure QdrantPoint where
  pid : Nat
  doc_id : Option Str
  metadata_doc_id : Option Str
deriving DecidableEq, Repr

/-- The two delete filters the code can issue. -/
inductive DeleteFilter
  | byRootDocId
  | byMetadataDocId
deriving DecidableEq, Repr

/-- The scroll-phase predicate: a point belongs to the document when either
its top-level `doc_id` or its nested `metadata.doc_id` equals the target. -/
def pointMatchesDoc (document_id : Str) (p : QdrantPoint) : Bool :=
  p.doc_id == some document_id || p.metadata_doc_id == some document_id

/-- `delete_by_document_id(collection_name, document_id)`: scroll the whole
collection collecting the set of matching point ids; when non-empty, issue
one delete filtered on the top-level `doc_id` and one filtered on
`metadata.doc_id`.  Returns (points left in the collection, the returned
deleted count, the filters issued). -/
def delete_by_document_id (points : List QdrantPoint) (document_id : Str) :
    List QdrantPoint × Nat × List DeleteFilter :=
  let points_to_delete := points.filter (pointMatchesDoc document_id)
  let deleted_count := (points_to_delete.map QdrantPoint.pid).dedup.length
  if points_to_delete.isEmpty then
    (points, deleted_count, [])
  else
    (points.filter (fun p => !(p.doc_id == some document_id)
        && !(p.metadata_doc_id == some document_id)),
      deleted_count,
      [DeleteFilter.byRootDocId, DeleteFilter.byMetadataDocId])

/-- Claim C6: after `delete_by_document_id`, no point remains whose
top-level `doc_id` equals the target and none whose nested
`metadata.doc_id` equals it — under either historical write path; and
whenever any matching point exists, both filters are issued. -/
theorem delete_by_document_removes_both_paths
    (points : List QdrantPoint) (document_id : Str) :
    (∀ p ∈ (delete_by_document_id points document_id).1,
      p.doc_id ≠ some document_id ∧ p.metadata_doc_id ≠ some document_id)
    ∧ ((∃ p ∈ points, p.doc_id = some document_id
          ∨ p.metadata_doc_id = some document_id) →
        (delete_by_document_id points document_id).2.2
          = [DeleteFilter.byRootDocId, DeleteFilter.byMetadataDocId]) := by
  unfold delete_by_document_id
  by_cases hempty : (points.filter (pointMatchesDoc document_id)).isEmpty
  · rw [if_pos hempty]
    have hnone : ∀ p ∈ points, ¬(pointMatchesDoc document_id p = true) := by
      rw [List.isEmpty_iff, List.filter_eq_nil_iff] at hempty
      exact hempty
    constructor
    · intro p hp
      have h := hnone p hp
      unfold pointMatchesDoc at h
      simp only [Bool.or_eq_true, beq_iff_eq] at h
      push_neg at h
      exact h
    · rintro ⟨p, hp, hmatch⟩
      exfalso
      apply hnone p hp
      unfold pointMatchesDoc
      simp only [Bool.or_eq_true, beq_iff_eq]
      exact hmatch
  · rw [if_neg hempty]
    constructor
    · intro p hp
      rw [List.mem_filter] at hp
      have h := hp.2
      simp only [Bool.and_eq_true, Bool.not_eq_true', beq_eq_false_iff_ne] at h
      exact h
    · intro _
      rfl

def wpointMatch : QdrantPoint := ⟨1, some "d7".toList, none⟩

def wpointMeta : QdrantPoint := ⟨2, none, some "d7".toList⟩

def wpointOther : QdrantPoint := ⟨3, some "x9".toList, none⟩

/-- Witness for C6 at a concrete collection holding a root-field point, a
nested-metadata point and an unrelated point. -/
theorem delete_by_document_removes_both_paths_witness :
    (∀ p ∈ (delete_by_document_id [wpointMatch, wpointMeta, wpointOther]
        "d7".toList).1,
      p.doc_id ≠ some "d7".toList ∧ p.metadata_doc_id ≠ some "d7".toList)
    ∧ (delete_by_document_id [wpointMatch, wpointMeta, wpointOther]
        "d7".toList).2.2
      = [DeleteFilter.byRootDocId, DeleteFilter.byMetadataDocId] := by
  have h := delete_by_document_removes_both_paths
    [wpointMatch, wpointMeta, wpointOther] "d7".toList
  exact ⟨h.1, h.2 ⟨wpointMatch, by decide, by decide⟩⟩

/-! ### `vectorization_orchestrator.vectorize_document` (claims C2 and C8) -/

/-- The document row fields the orchestrator reads and writes. -/
structure DocRecord where
  content_hash : Option Str
  vectorization_status : Str
  vectorization_error : Option Str
deriving DecidableEq, Repr

/-- Observable trace of one `vectorize_document` call: the document row
after the call, the job's final status/error (when a job row was created),
whether existing vectors were deleted, whether `add_documents` was reached,
and how many provider (embed+upsert) batch calls were attempted. -/
structure VecTrace where
  doc : DocRecord
  job_status : Option Str
  job_error : Option Str
  delete_called : Bool
  upsert_called : Bool
  provider_batches : Nat
deriving DecidableEq, Repr

/-- The dict returned by `vectorize_document` (the fields the claims read;
a missing "skipped" key is `false`). -/
structure VecResult where
  success : Bool
  skipped : Bool
  error : Option Str
deriving DecidableEq, Repr

/-- `vectorize_document(document_id, force)`.  Inputs model the externals:
whether the document row was found, whether the job insert succeeded, the
document row as stored, the recomputed file hash, the chunker's output and
the per-batch provider oracle.  The embedding follows the source order: the
row's status is set to "in_progress" BEFORE the skip check re-reads it. -/
def vectorize_document (doc_found : Bool) (job_created : Bool) (db : DocRecord)
    (computed_hash : Str) (force : Bool) (chunks : List Str)
    (upsertOk : Nat → Bool) : VecResult × VecTrace :=
  if ¬doc_found then
    ({ success := false, skipped := false, error := some "Document not found".toList },
      { doc := db, job_status := none, job_error := none, delete_called := false,
        upsert_called := false, provider_batches := 0 })
  else
    let db1 : DocRecord := { db with vectorization_status := "in_progress".toList }
    let job1 : Option Str := if job_created then some "processing".toList else none
    if ¬force ∧ db1.content_hash = some computed_hash
        ∧ db1.vectorization_status = "vectorized".toList then
      ({ success := true, skipped := true, error := none },
        { doc := db1, job_status := job1, job_error := none, delete_called := false,
          upsert_called := false, provider_batches := 0 })
    else
      if chunks = [] then
        ({ success := false, skipped := false,
            error := some "No chunks generated from document".toList },
          { doc := { db1 with
              vectorization_status := "error".toList,
              vectorization_error := some "No chunks generated from document".toList },
            job_status := if job_created then some "failed".toList else none,
            job_error := if job_created
              then some "No chunks generated from document".toList else none,
            delete_called := force, upsert_called := false, provider_batches := 0 })
      else
        let stats := add_documents chunks upsertOk 10
        ({ success := true, skipped := false, error := none },
          { doc := { db1 with
              vectorization_status := "vectorized".toList,
              content_hash := some computed_hash },
            job_status := if job_created then some "completed".toList else none,
            job_error := none,
            delete_called := force, upsert_called := true,
            provider_batches := stats.batches })

/-- Document row left by a first successful vectorization: status
"vectorized" and the content hash stored. -/
def secondCallDb : DocRecord :=
  { content_hash := some "h1".toList,
    vectorization_status := "vectorized".toList,
    vectorization_error := none }

/-- Claim C2 failing run: a second `vectorize_document(force=false)` call on
an unchanged document (stored hash equals the recomputed hash, stored
status "vectorized" when the call starts).  Because the call first sets the
status to "in_progress" and only then re-reads it for the skip check, the
check `status == "vectorized"` fails, so the call does NOT short-circuit:
it returns `skipped=false` and performs a provider batch call instead of
zero. -/
theorem vectorize_second_call_not_skipped :
    ((vectorize_document true true secondCallDb "h1".toList false
        ["chunk one".toList] (fun _ => true)).1.skipped = false)
    ∧ ((vectorize_document true true secondCallDb "h1".toList false
        ["chunk one".toList] (fun _ => true)).1.success = true)
    ∧ ((vectorize_document true true secondCallDb "h1".toList false
        ["chunk one".toList] (fun _ => true)).2.provider_batches = 1) := by
  refine ⟨rfl, rfl, rfl⟩

/-- Claim C8: whenever chunking yields zero chunks, `vectorize_document`
aborts: no upsert is attempted (zero provider calls), the document status
becomes "error", a created job is marked "failed", and the call returns
`success=false` with the error recorded. -/
theorem vectorize_zero_chunks_aborts (job_created : Bool) (db : DocRecord)
    (computed_hash : Str) (force : Bool) (upsertOk : Nat → Bool) :
    ((vectorize_document true job_created db computed_hash force []
        upsertOk).1.success = false)
    ∧ ((vectorize_document true job_created db computed_hash force []
        upsertOk).1.error = some "No chunks generated from document".toList)
    ∧ ((vectorize_document true job_created db computed_hash force []
        upsertOk).2.doc.vectorization_status = "error".toList)
    ∧ ((vectorize_document true job_created db computed_hash force []
        upsertOk).2.job_status = if job_created then some "failed".toList else none)
    ∧ ((vectorize_document true job_created db computed_hash force []
        upsertOk).2.upsert_called = false)
    ∧ ((vectorize_document true job_created db computed_hash force []
        upsertOk).2.provider_batches = 0) := by
  have hnotskip : ¬(¬force ∧
      ({ db with vectorization_status := "in_progress".toList } : DocRecord).content_hash
        = some computed_hash
      ∧ ({ db with vectorization_status := "in_progress".toList } : DocRecord).vectorization_status
        = "vectorized".toList) := by
    rintro ⟨-, -, hbad⟩
    have h0 : ("in_progress".toList : Str) = "vectorized".toList := hbad
    exact absurd h0 (by decide)
  unfold vectorize_document
  rw [if_neg (by simp : ¬¬(true : Bool) = true)]
  rw [if_neg hnotskip, if_pos rfl]
  exact ⟨rfl, rfl, rfl, rfl, rfl, rfl⟩

/-! ### `rag_sdk_service.chunk_text` (claim C10) -/

/-- Python slice-index adjustment: a negative index counts from the end
(clamped at 0), a non-negative one is clamped at the length. -/
def pyAdjust (n : Nat) (i : Int) : Nat :=
  if i < 0 then ((n : Int) + i).toNat else min i.toNat n

/-- Search positions `lo ≤ p < k` from the top for the character `c`;
`-1` when none matches (the descending scan of Python `str.rfind`). -/
def rfindGo (s : Str) (c : Char) (lo : Nat) : Nat → Int
  | 0 => -1
  | k + 1 =>
    if k < lo then -1
    else if s.get? k = some c then (k : Int)
    else rfindGo s c lo k

/-- Python `s.rfind(c, i, j)` for a single-character needle, with Python's
negative-index adjustment of both bounds. -/
def pyRfindChar (s : Str) (c : Char) (i j : Int) : Int :=
  rfindGo s c (pyAdjust s.length i) (pyAdjust s.length j)

/-- Python `s[i:j]` with Python's negative-index adjustment. -/
def pySlice (s : Str) (i j : Int) : Str :=
  (s.take (pyAdjust s.length j)).drop (pyAdjust s.length i)

/-- One iteration of the `while start < len(text)` loop of `chunk_text`:
compute the window end, pull it back to just after the last
sentence-ending punctuation found in the window (when past `start`), strip
the slice, and step `start` to `end - overlap`.  Returns the next `start`
and the chunk appended this round (if non-empty). -/
def chunkStep (text : Str) (chunk_size overlap : Int) (start : Int) :
    Int × Option Str :=
  let e0 := start + chunk_size
  let e1 :=
    if e0 < (text.length : Int) then
      let last_sentence_end :=
        max (max (pyRfindChar text '.' start e0) (pyRfindChar text '!' start e0))
          (pyRfindChar text '?' start e0)
      if last_sentence_end > start then last_sentence_end + 1 else e0
    else e0
  let chunk := pyStrip (pySlice text start e1)
  (e1 - overlap, if chunk.isEmpty then none else some chunk)

/-- Fuel-indexed run of the `chunk_text` loop; `none` means the fuel ran
out before the loop condition `start < len(text)` turned false. -/
def chunkTextAux (text : Str) (chunk_size overlap : Int) :
    Nat → Int → List Str → Option (List Str)
  | 0, _, _ => none
  | fuel + 1, start, chunks =>
    if start < (text.length : Int) then
      chunkTextAux text chunk_size overlap fuel
        (chunkStep text chunk_size overlap start).1
        (match (chunkStep text chunk_size overlap start).2 with
          | some chunk => chunks ++ [chunk]
          | none => chunks)
    else some chunks

/-- `chunk_text(text, chunk_size, overlap)`: the short text fast path, then
the loop from `start = 0` with empty accumulator. -/
def chunk_text (text : Str) (chunk_size overlap : Int) (fuel : Nat) :
    Option (List Str) :=
  if (text.length : Int) ≤ chunk_size then some [text]
  else chunkTextAux text chunk_size overlap fuel 0 []

/-- A 13-character text on which `chunk_text(·, 10, 5)` loops forever:
one early sentence end, then unpunctuated filler. -/
def loopText : Str := "a.bbbbbbbbbbb".toList

theorem chunkStep_loopText_zero :
    chunkStep loopText 10 5 0 = (-3, some "a.".toList) := by decide

theorem chunkStep_loopText_neg3 :
    chunkStep loopText 10 5 (-3) = (-5, none) := by decide

theorem chunkStep_loopText_neg5 :
    chunkStep loopText 10 5 (-5) = (-5, none) := by decide

/-- At `start = -5` the loop is at a fixed point: every amount of fuel runs
out. -/
theorem chunkTextAux_loopText_neg5 :
    ∀ (fuel : Nat) (chunks : List Str),
      chunkTextAux loopText 10 5 fuel (-5) chunks = none := by
  intro fuel
  induction fuel with
  | zero => intro chunks; rfl
  | succ n ih =>
    intro chunks
    simp only [chunkTextAux]
    rw [if_pos (by decide : (-5 : Int) < (loopText.length : Int))]
    simp only [chunkStep_loopText_neg5]
    exact ih chunks

theorem chunkTextAux_loopText_neg3 :
    ∀ (fuel : Nat) (chunks : List Str),
      chunkTextAux loopText 10 5 fuel (-3) chunks = none := by
  intro fuel chunks
  cases fuel with
  | zero => rfl
  | succ n =>
    simp only [chunkTextAux]
    rw [if_pos (by decide : (-3 : Int) < (loopText.length : Int))]
    simp only [chunkStep_loopText_neg3]
    exact chunkTextAux_loopText_neg5 n chunks

theorem chunkTextAux_loopText_zero :
    ∀ (fuel : Nat) (chunks : List Str),
      chunkTextAux loopText 10 5 fuel 0 chunks = none := by
  intro fuel chunks
  cases fuel with
  | zero => rfl
  | succ n =>
    simp only [chunkTextAux]
    rw [if_pos (by decide : (0 : Int) < (loopText.length : Int))]
    simp only [chunkStep_loopText_zero]
    exact chunkTextAux_loopText_neg3 n (chunks ++ ["a.".toList])

/-- Claim C10 refuted on a failing input: with `chunk_size = 10` and
`overlap = 5` (so `0 ≤ overlap < chunk_size` holds) the loop on `loopText`
never terminates — no amount of fuel reaches the exit condition.  Already
the first iteration DECREASES the start index (the window end is pulled
back to just after the early "." and `start` becomes `2 - 5 = -3`), and
from `start = -5` on, Python's negative-index semantics make every `rfind`
return `-1 > start`, pinning `end` at `0` and `start` at `-5` forever. -/
theorem chunk_text_nonterminating :
    ((0 : Int) ≤ 5 ∧ (5 : Int) < 10)
    ∧ (∀ fuel : Nat, chunk_text loopText 10 5 fuel = none)
    ∧ (chunkStep loopText 10 5 0).1 < 0
    ∧ (chunkStep loopText 10 5 (-3)).1 < -3 := by
  refine ⟨by decide, ?_, by decide, by decide⟩
  intro fuel
  unfold chunk_text
  rw [if_neg (by decide : ¬((loopText.length : Int) ≤ 10))]
  exact chunkTextAux_loopText_zero fuel []
